import Mathlib

/-!
Shallow embedding of the core logic of the `air_quality` repository
(`src/app3.py` and `src/pipline_code.py`) and proofs about it.

Both Python files define the same class `AQIAutoDetector` with an identical
breakpoint table `self.bps` and an identical method `get_sub_index`; those are
embedded once below.  Real-valued quantities (Python floats) are modelled as
exact rationals `ℚ`.
-/

set_option maxRecDepth 100000

namespace AirQuality

/-- One breakpoint band `(clo, chi, ilo, ihi)` of the hardcoded table
`self.bps` (identical in `app3.py` line 14-18 and `pipline_code.py` line 13-17). -/
structure Band where
  clo : ℚ
  chi : ℚ
  ilo : ℚ
  ihi : ℚ
deriving DecidableEq, Repr

/-- The `"PM25"` entry of `self.bps`. -/
def pm25Bps : List Band :=
  [⟨0, 30, 0, 50⟩, ⟨31, 60, 51, 100⟩, ⟨61, 90, 101, 200⟩,
   ⟨91, 120, 201, 300⟩, ⟨121, 250, 301, 400⟩, ⟨250, 500, 401, 500⟩]

/-- The `"PM10"` entry of `self.bps`. -/
def pm10Bps : List Band :=
  [⟨0, 50, 0, 50⟩, ⟨51, 100, 51, 100⟩, ⟨101, 250, 101, 200⟩,
   ⟨251, 350, 201, 300⟩, ⟨351, 430, 301, 400⟩, ⟨430, 500, 401, 500⟩]

/-- The `"CO"` entry of `self.bps`; the decimal literals `1.1`, `2.1`, `10.1`,
`17.1`, `34.1` are exact rationals here. -/
def coBps : List Band :=
  [⟨0, 1, 0, 50⟩, ⟨1.1, 2, 51, 100⟩, ⟨2.1, 10, 101, 200⟩,
   ⟨10.1, 17, 201, 300⟩, ⟨17.1, 34, 301, 400⟩, ⟨34.1, 100, 401, 500⟩]

/-- The dictionary `self.bps`: pollutant name to band list, `none` for a key
not in the dictionary. -/
def bps (pollutant : String) : Option (List Band) :=
  if pollutant = "PM25" then some pm25Bps
  else if pollutant = "PM10" then some pm10Bps
  else if pollutant = "CO" then some coBps
  else none

/-- The per-band test `clo <= conc <= chi` of `get_sub_index`. -/
def bandMatches (b : Band) (conc : ℚ) : Bool :=
  decide (b.clo ≤ conc) && decide (conc ≤ b.chi)

/-- The `for` loop of `get_sub_index`: scan bands in table order, return the
linear interpolation `((ihi - ilo) / (chi - clo)) * (conc - clo) + ilo` for the
first matching band, `500` if no band matches. -/
def scanBands : List Band → ℚ → ℚ
  | [], _ => 500
  | b :: rest, conc =>
      if b.clo ≤ conc ∧ conc ≤ b.chi then
        (b.ihi - b.ilo) / (b.chi - b.clo) * (conc - b.clo) + b.ilo
      else scanBands rest conc

/-- `AQIAutoDetector.get_sub_index(conc, pollutant)` (`app3.py` 20-25,
`pipline_code.py` 19-24): `0` when the pollutant is not a key of `bps` or
`conc <= 0`, otherwise the band scan. -/
def get_sub_index (conc : ℚ) (pollutant : String) : ℚ :=
  match bps pollutant with
  | none => 0
  | some bands => if conc ≤ 0 then 0 else scanBands bands conc

/-- Written from the SPEC's words (section 4.2), for comparison with
`get_sub_index`: 0 if concentration ≤ 0 or pollutant unknown; otherwise the
first band (via `List.find?`) with `clo ≤ conc ≤ chi` gives
`ilo + (ihi − ilo) / (chi − clo) × (conc − clo)`; if no band matches, 500. -/
def specSubIndex (conc : ℚ) (pollutant : String) : ℚ :=
  match bps pollutant with
  | none => 0
  | some bands =>
      if conc ≤ 0 then 0
      else
        match bands.find? (fun b => bandMatches b conc) with
        | some b => b.ilo + (b.ihi - b.ilo) / (b.chi - b.clo) * (conc - b.clo)
        | none => 500

/-- The loop of `get_sub_index` agrees with the first-match description. -/
theorem scanBands_eq_find (bands : List Band) (conc : ℚ) :
    scanBands bands conc =
      match bands.find? (fun b => bandMatches b conc) with
      | some b => b.ilo + (b.ihi - b.ilo) / (b.chi - b.clo) * (conc - b.clo)
      | none => 500 := by
  induction bands with
  | nil => rfl
  | cons b rest ih =>
      by_cases h : b.clo ≤ conc ∧ conc ≤ b.chi
      · have hm : bandMatches b conc = true := by
          simp [bandMatches, h.1, h.2]
        rw [List.find?_cons]
        simp only [hm]
        simp only [scanBands, if_pos h]
        ring
      · have hm : bandMatches b conc = false := by
          rcases not_and_or.mp h with h1 | h1 <;> simp [bandMatches, h1]
        rw [List.find?_cons]
        simp only [hm]
        simp only [scanBands, if_neg h]
        exact ih

/-- C1: `get_sub_index` returns 0 for non-positive concentration or unknown
pollutant, otherwise the interpolation `ilo + (ihi − ilo)/(chi − clo) ×
(conc − clo)` for the first matching band in table order, and 500 when no band
matches; in particular `get_sub_index(0, "PM25") = 0`,
`get_sub_index(-5, "PM25") = 0` and `get_sub_index(1000, "PM25") = 500`. -/
theorem get_sub_index_correct :
    (∀ (conc : ℚ) (pollutant : String),
        get_sub_index conc pollutant = specSubIndex conc pollutant)
    ∧ get_sub_index 0 "PM25" = 0
    ∧ get_sub_index (-5) "PM25" = 0
    ∧ get_sub_index 1000 "PM25" = 500 := by
  refine ⟨fun conc pollutant => ?_,
    of_decide_eq_true (by with_unfolding_all rfl),
    of_decide_eq_true (by with_unfolding_all rfl),
    of_decide_eq_true (by with_unfolding_all rfl)⟩
  unfold get_sub_index specSubIndex
  cases bps pollutant with
  | none => rfl
  | some bands =>
      by_cases h : conc ≤ 0
      · simp [h]
      · simp [h, scanBands_eq_find]

/-- Number of bands of a table that match a given concentration. -/
def matchCount (bands : List Band) (conc : ℚ) : ℕ :=
  (bands.filter (fun b => bandMatches b conc)).length

/-- C2 counterexample: the table is not a partition of the covered range.
At PM25 concentration 250 two bands match (`(121,250,301,400)` and
`(250,500,401,500)`), at PM25 concentration 30.5 no band matches (gap between
`(0,30,...)` and `(31,...)`), at PM10 concentration 430 two bands match, and at
CO concentration 1.05 no band matches — all inside the covered ranges. -/
theorem breakpoints_not_partition :
    matchCount pm25Bps 250 = 2 ∧ matchCount pm25Bps (30.5) = 0
    ∧ matchCount pm10Bps 430 = 2 ∧ matchCount coBps (1.05) = 0 :=
  of_decide_eq_true (by with_unfolding_all rfl)

/-- C2 amended: restricted to integer concentrations the table is almost a
partition: for every integer in `[0, 500]` at least one PM25 band and one PM10
band matches, exactly one except at the overlap points PM25 = 250 and
PM10 = 430 where two adjacent bands match; for every integer in `[0, 100]`
exactly one CO band matches. -/
theorem breakpoints_integer_partition :
    (∀ i : Fin 501, matchCount pm25Bps ((i : ℕ) : ℚ) =
        if (i : ℕ) = 250 then 2 else 1)
    ∧ (∀ i : Fin 501, matchCount pm10Bps ((i : ℕ) : ℚ) =
        if (i : ℕ) = 430 then 2 else 1)
    ∧ (∀ i : Fin 101, matchCount coBps ((i : ℕ) : ℚ) = 1) :=
  of_decide_eq_true (by with_unfolding_all rfl)

/-- Evaluation lemma for the dictionary lookup. -/
theorem bps_pm25_eq : bps "PM25" = some pm25Bps := rfl

/-- Evaluation lemma for the dictionary lookup. -/
theorem bps_pm10_eq : bps "PM10" = some pm10Bps := rfl

/-- Evaluation lemma for the dictionary lookup. -/
theorem bps_co_eq : bps "CO" = some coBps := rfl

/-- C6: at every boundary between consecutive bands the sub-index is
near-continuous: the upper edge of each band maps to its `ihi` and the lower
edge of the next band to its `ilo = ihi + 1`, so the jump is exactly 1 — in
particular `get_sub_index(30, "PM25") = 50` and `get_sub_index(31, "PM25") = 51`.
At the two point-overlaps (PM25 250, PM10 430) the first matching band wins, the
value is 400, and one unit later the index is `401 + 99/250` resp. `401 + 99/70`,
a jump of less than 2.4 over one unit of concentration. -/
theorem boundary_near_continuous :
    get_sub_index 30 "PM25" = 50 ∧ get_sub_index 31 "PM25" = 51
    ∧ get_sub_index 60 "PM25" = 100 ∧ get_sub_index 61 "PM25" = 101
    ∧ get_sub_index 90 "PM25" = 200 ∧ get_sub_index 91 "PM25" = 201
    ∧ get_sub_index 120 "PM25" = 300 ∧ get_sub_index 121 "PM25" = 301
    ∧ get_sub_index 250 "PM25" = 400 ∧ get_sub_index 251 "PM25" = 401 + 99/250
    ∧ get_sub_index 500 "PM25" = 500
    ∧ get_sub_index 50 "PM10" = 50 ∧ get_sub_index 51 "PM10" = 51
    ∧ get_sub_index 100 "PM10" = 100 ∧ get_sub_index 101 "PM10" = 101
    ∧ get_sub_index 250 "PM10" = 200 ∧ get_sub_index 251 "PM10" = 201
    ∧ get_sub_index 350 "PM10" = 300 ∧ get_sub_index 351 "PM10" = 301
    ∧ get_sub_index 430 "PM10" = 400 ∧ get_sub_index 431 "PM10" = 401 + 99/70
    ∧ get_sub_index 500 "PM10" = 500
    ∧ get_sub_index 1 "CO" = 50 ∧ get_sub_index 1.1 "CO" = 51
    ∧ get_sub_index 2 "CO" = 100 ∧ get_sub_index 2.1 "CO" = 101
    ∧ get_sub_index 10 "CO" = 200 ∧ get_sub_index 10.1 "CO" = 201
    ∧ get_sub_index 17 "CO" = 300 ∧ get_sub_index 17.1 "CO" = 301
    ∧ get_sub_index 34 "CO" = 400 ∧ get_sub_index 34.1 "CO" = 401
    ∧ get_sub_index 100 "CO" = 500 := by
  refine ⟨?_, ?_, ?_, ?_, ?_, ?_, ?_, ?_, ?_, ?_, ?_, ?_, ?_, ?_, ?_, ?_, ?_,
    ?_, ?_, ?_, ?_, ?_, ?_, ?_, ?_, ?_, ?_, ?_, ?_, ?_, ?_, ?_, ?_⟩ <;>
    norm_num [get_sub_index, bps_pm25_eq, bps_pm10_eq, bps_co_eq, scanBands,
      pm25Bps, pm10Bps, coBps]

/-- A well-formed band: nonempty concentration interval, index interval inside
`[0, 500]`. Every band of the hardcoded table satisfies this. -/
def goodBand (b : Band) : Prop :=
  b.clo < b.chi ∧ 0 ≤ b.ilo ∧ b.ilo ≤ b.ihi ∧ b.ihi ≤ 500

/-- The linear interpolation of a matching band stays between `ilo` and `ihi`. -/
theorem interp_mem (b : Band) (conc : ℚ) (hcc : b.clo < b.chi)
    (hii : b.ilo ≤ b.ihi) (hlo : b.clo ≤ conc) (hhi : conc ≤ b.chi) :
    b.ilo ≤ (b.ihi - b.ilo) / (b.chi - b.clo) * (conc - b.clo) + b.ilo
    ∧ (b.ihi - b.ilo) / (b.chi - b.clo) * (conc - b.clo) + b.ilo ≤ b.ihi := by
  have hd : (0:ℚ) < b.chi - b.clo := by linarith
  have hq : (0:ℚ) ≤ (b.ihi - b.ilo) / (b.chi - b.clo) :=
    div_nonneg (by linarith) (le_of_lt hd)
  constructor
  · have := mul_nonneg hq (by linarith : (0:ℚ) ≤ conc - b.clo)
    linarith
  · have h1 : (b.ihi - b.ilo) / (b.chi - b.clo) * (conc - b.clo)
        ≤ (b.ihi - b.ilo) / (b.chi - b.clo) * (b.chi - b.clo) :=
      mul_le_mul_of_nonneg_left (by linarith) hq
    have h2 : (b.ihi - b.ilo) / (b.chi - b.clo) * (b.chi - b.clo) = b.ihi - b.ilo :=
      div_mul_cancel₀ _ (ne_of_gt hd)
    linarith

/-- The band scan stays in `[0, 500]` whenever every band is well formed. -/
theorem scanBands_range (bands : List Band) (conc : ℚ)
    (h : ∀ b ∈ bands, goodBand b) :
    0 ≤ scanBands bands conc ∧ scanBands bands conc ≤ 500 := by
  induction bands with
  | nil => exact ⟨by norm_num [scanBands], by norm_num [scanBands]⟩
  | cons b rest ih =>
      have hb : goodBand b := h b (List.mem_cons_self b rest)
      by_cases hc : b.clo ≤ conc ∧ conc ≤ b.chi
      · have := interp_mem b conc hb.1 hb.2.2.1 hc.1 hc.2
        simp only [scanBands, if_pos hc]
        exact ⟨le_trans hb.2.1 this.1, le_trans this.2 hb.2.2.2⟩
      · simp only [scanBands, if_neg hc]
        exact ih (fun b' hb' => h b' (List.mem_cons_of_mem b hb'))

/-- Every band of the three hardcoded tables is well formed. -/
theorem tables_good :
    (∀ b ∈ pm25Bps, goodBand b) ∧ (∀ b ∈ pm10Bps, goodBand b)
    ∧ (∀ b ∈ coBps, goodBand b) := by
  refine ⟨?_, ?_, ?_⟩ <;>
    · intro b hb
      fin_cases hb <;> exact ⟨by norm_num, by norm_num, by norm_num, by norm_num⟩

/-- `get_sub_index` always lands in `[0, 500]`, for every pollutant string. -/
theorem get_sub_index_range (conc : ℚ) (pollutant : String) :
    0 ≤ get_sub_index conc pollutant ∧ get_sub_index conc pollutant ≤ 500 := by
  unfold get_sub_index bps
  by_cases h25 : pollutant = "PM25"
  · simp only [h25, if_true, if_pos rfl]
    by_cases hc : conc ≤ 0
    · simp [hc]
    · simpa [hc] using scanBands_range pm25Bps conc tables_good.1
  · by_cases h10 : pollutant = "PM10"
    · simp only [h25, h10, if_false, if_true, if_pos rfl, if_neg h25]
      by_cases hc : conc ≤ 0
      · simp [hc]
      · simpa [hc] using scanBands_range pm10Bps conc tables_good.2.1
    · by_cases hco : pollutant = "CO"
      · simp only [h25, h10, hco, if_neg h25, if_neg h10, if_pos rfl]
        by_cases hc : conc ≤ 0
        · simp [hc]
        · simpa [hc] using scanBands_range coBps conc tables_good.2.2
      · simp [h25, h10, hco]

/-! ### The field classifier

The per-image body is the same in `app3.py` (`process_image_data`, lines
27-50) and `pipline_code.py` (the loop body of `run`, lines 38-78): filter the
OCR detections to numeric text in the horizontal center band, sort by center y,
take the last four as PM25/PM10/CO/CO2 and compute the final AQI.  Strings are
modelled as `List Char`; the OCR `allowlist` restricts the text to the
characters `0123456789.`. -/

/-- Python `text.replace('.', '', 1)`: the string with its first `'.'`
removed (unchanged if there is none). -/
def replaceFirstDot : List Char → List Char
  | [] => []
  | c :: cs => if c = '.' then cs else c :: replaceFirstDot cs

/-- Python `str.isdigit` on strings over the OCR allowlist `0123456789.`:
nonempty and consisting of digits only. -/
def pyIsDigit (s : List Char) : Bool :=
  !s.isEmpty && s.all (fun c => c.isDigit)

/-- The numeric filter `text.replace('.', '', 1).isdigit()` of both files. -/
def numericText (s : List Char) : Bool :=
  pyIsDigit (replaceFirstDot s)

/-- Value of a digit string read in base 10. -/
def digitsToNat (s : List Char) : ℕ :=
  s.foldl (fun a c => 10 * a + (c.toNat - 48)) 0

/-- Modelled from Python's built-in `float()` restricted to strings over the
OCR allowlist `0123456789.` (the only strings it is applied to here): defined
exactly on nonempty strings of digits containing at most one `'.'` and at
least one digit, returning integer part plus fractional part. -/
def pyFloatParse (s : List Char) : Option ℚ :=
  if s.all (fun c => c.isDigit || c = '.') && decide (s.count '.' ≤ 1)
      && s.any (fun c => c.isDigit) then
    some ((digitsToNat (s.takeWhile (fun c => c ≠ '.')) : ℚ)
      + (digitsToNat ((s.dropWhile (fun c => c ≠ '.')).drop 1) : ℚ)
        / 10 ^ ((s.dropWhile (fun c => c ≠ '.')).drop 1).length)
  else none

/-- `float(text)` as used after the numeric filter; `0` outside the domain
(where the Python call would raise). -/
def pyFloat (s : List Char) : ℚ :=
  (pyFloatParse s).getD 0

/-- A corner point of an OCR bounding box. -/
structure Pt where
  x : ℚ
  y : ℚ
deriving DecidableEq, Repr

/-- One OCR detection `(bbox, text, prob)` as returned by `readtext`:
a quadrilateral bounding box of four corner points, the recognized text and a
confidence score (the confidence is destructured but never used). -/
structure Detection where
  p1 : Pt
  p2 : Pt
  p3 : Pt
  p4 : Pt
  text : List Char
  prob : ℚ
deriving DecidableEq, Repr

/-- `center_x = sum([p[0] for p in bbox]) / 4`. -/
def centerX (d : Detection) : ℚ :=
  (d.p1.x + d.p2.x + d.p3.x + d.p4.x) / 4

/-- `center_y = sum([p[1] for p in bbox]) / 4`. -/
def centerY (d : Detection) : ℚ :=
  (d.p1.y + d.p2.y + d.p3.y + d.p4.y) / 4

/-- The filtering loop over `raw_results` (identical in both files): keep a
detection when its text passes the numeric filter and its center x lies
strictly inside `(0.35*w, 0.65*w)`, recording `(center_y, float(text))`. -/
def detectNumbers (raw : List Detection) (w : ℚ) : List (ℚ × ℚ) :=
  raw.filterMap (fun d =>
    if numericText d.text then
      if 0.35 * w < centerX d ∧ centerX d < 0.65 * w then
        some (centerY d, pyFloat d.text)
      else none
    else none)

/-- Python's ascending order on the pairs `(center_y, value)`: lexicographic
product order. -/
def pairLe (a b : ℚ × ℚ) : Prop :=
  a.1 < b.1 ∨ (a.1 = b.1 ∧ a.2 ≤ b.2)

instance : DecidableRel pairLe := fun a b =>
  inferInstanceAs (Decidable (a.1 < b.1 ∨ (a.1 = b.1 ∧ a.2 ≤ b.2)))

instance : IsTotal (ℚ × ℚ) pairLe where
  total a b := by
    rcases lt_trichotomy a.1 b.1 with h | h | h
    · exact Or.inl (Or.inl h)
    · rcases le_total a.2 b.2 with h2 | h2
      · exact Or.inl (Or.inr ⟨h, h2⟩)
      · exact Or.inr (Or.inr ⟨h.symm, h2⟩)
    · exact Or.inr (Or.inl h)

instance : IsTrans (ℚ × ℚ) pairLe where
  trans a b c hab hbc := by
    rcases hab with h1 | ⟨h1, h1v⟩ <;> rcases hbc with h2 | ⟨h2, h2v⟩
    · exact Or.inl (lt_trans h1 h2)
    · exact Or.inl (h2 ▸ h1)
    · exact Or.inl (h1 ▸ h2)
    · exact Or.inr ⟨h1.trans h2, le_trans h1v h2v⟩

instance : IsAntisymm (ℚ × ℚ) pairLe where
  antisymm a b hab hba := by
    rcases hab with h1 | ⟨h1, h1v⟩ <;> rcases hba with h2 | ⟨h2, h2v⟩
    · exact absurd h2 (lt_asymm h1)
    · exact absurd h1 (h2 ▸ lt_irrefl _)
    · exact absurd h2 (h1 ▸ lt_irrefl _)
    · exact Prod.ext h1 (le_antisymm h1v h2v)

/-- `detected_numbers.sort()`: ascending sort of the `(center_y, value)`
pairs.  `pairLe` is a total, transitive, antisymmetric order, so the sorted
permutation is unique and any correct sorting algorithm computes it;
insertion sort is used as the model. -/
def sortDetected (l : List (ℚ × ℚ)) : List (ℚ × ℚ) :=
  List.insertionSort pairLe l

/-- The four pollutant fields of a produced row (the `Filename` and
`Timestamp` fields carry no logic and are omitted). -/
structure Row where
  pm25 : ℚ
  pm10 : ℚ
  co : ℚ
  co2 : ℚ
deriving DecidableEq, Repr

/-- The row-building step shared by both files: defaults of 0, and when at
least 4 numbers survive, the last 4 sorted entries assigned positionally
`1st→PM25, 2nd→PM10, 3rd→CO, 4th→CO2` (`detected_numbers[-4:]`). -/
def assignRow (nums : List (ℚ × ℚ)) : Row :=
  let sorted := sortDetected nums
  if 4 ≤ sorted.length then
    let target := sorted.drop (sorted.length - 4)
    ⟨(target.getD 0 (0, 0)).2, (target.getD 1 (0, 0)).2,
     (target.getD 2 (0, 0)).2, (target.getD 3 (0, 0)).2⟩
  else ⟨0, 0, 0, 0⟩

/-- `max(si_pm25, si_pm10, si_co)` computed from a row (identical lines in
both files); the `CO2` field is not consulted. -/
def rowMaxSubIndex (r : Row) : ℚ :=
  max (max (get_sub_index r.pm25 "PM25") (get_sub_index r.pm10 "PM10"))
    (get_sub_index r.co "CO")

/-- Modelled from Python's built-in `round()` with no `ndigits`:
round half to even. -/
def pyRound (q : ℚ) : ℤ :=
  if q - ⌊q⌋ < 1/2 then ⌊q⌋
  else if (1:ℚ)/2 < q - ⌊q⌋ then ⌊q⌋ + 1
  else if ⌊q⌋ % 2 = 0 then ⌊q⌋ else ⌊q⌋ + 1

/-- `AQIAutoDetector.process_image_data` of `app3.py` (lines 27-50), from the
OCR results on: the produced pollutant fields together with
`Final_AQI = int(round(max(si_pm25, si_pm10, si_co)))`. -/
def app3Process (raw : List Detection) (w : ℚ) : Row × ℤ :=
  let row := assignRow (detectNumbers raw w)
  (row, pyRound (rowMaxSubIndex row))

/-- The per-file body of `AQIAutoDetector.run` of `pipline_code.py` (lines
38-77), from the OCR results on: the produced pollutant fields together with
`Final_AQI = max(si_pm25, si_pm10, si_co)` (not rounded; the stored value is
the raw maximum). -/
def piplineProcess (raw : List Detection) (w : ℚ) : Row × ℚ :=
  let row := assignRow (detectNumbers raw w)
  (row, rowMaxSubIndex row)

/-- A list of length 4 is a literal four-element list. -/
theorem exists_length_four {α : Type} {l : List α} (h : l.length = 4) :
    ∃ a b c d, l = [a, b, c, d] :=
  let [a, b, c, d] := l
  ⟨a, b, c, d, rfl⟩

/-- Sorting does not change the number of surviving detections. -/
theorem sortDetected_length (l : List (ℚ × ℚ)) :
    (sortDetected l).length = l.length :=
  (List.perm_insertionSort pairLe l).length_eq

/-- With fewer than 4 surviving detections all four fields default to 0. -/
theorem assignRow_short (nums : List (ℚ × ℚ)) (h : nums.length < 4) :
    assignRow nums = ⟨0, 0, 0, 0⟩ := by
  unfold assignRow
  rw [if_neg]
  rw [sortDetected_length]
  omega

/-- With at least 4 surviving detections the sorted list ends in four entries
whose values become PM25, PM10, CO, CO2 in order. -/
theorem assignRow_last (nums : List (ℚ × ℚ)) (h : 4 ≤ nums.length) :
    ∃ (front : List (ℚ × ℚ)) (a b c d : ℚ × ℚ),
      sortDetected nums = front ++ [a, b, c, d]
      ∧ assignRow nums = ⟨a.2, b.2, c.2, d.2⟩ := by
  have hlen : (sortDetected nums).length = nums.length := sortDetected_length nums
  have h4 : 4 ≤ (sortDetected nums).length := by omega
  have hdrop : ((sortDetected nums).drop ((sortDetected nums).length - 4)).length = 4 := by
    rw [List.length_drop]
    omega
  obtain ⟨a, b, c, d, habcd⟩ := exists_length_four hdrop
  refine ⟨(sortDetected nums).take ((sortDetected nums).length - 4), a, b, c, d, ?_, ?_⟩
  · conv_lhs => rw [← List.take_append_drop ((sortDetected nums).length - 4) (sortDetected nums)]
    rw [habcd]
  · unfold assignRow
    rw [if_pos h4, habcd]
    rfl

/-- C5: surviving detections are sorted by center y ascending; with fewer than
4 survivors all four pollutant fields are 0; otherwise the last 4 entries of
the sorted list are assigned positionally 1st→PM25, 2nd→PM10, 3rd→CO, 4th→CO2;
in particular 5 survivors with values [10, 20, 30, 40, 50] at increasing
center y give PM25 = 20, PM10 = 30, CO = 40, CO2 = 50. -/
theorem classifier_assignment :
    (∀ nums : List (ℚ × ℚ), (sortDetected nums).Pairwise (fun a b => a.1 ≤ b.1))
    ∧ (∀ nums : List (ℚ × ℚ), nums.length < 4 → assignRow nums = ⟨0, 0, 0, 0⟩)
    ∧ (∀ nums : List (ℚ × ℚ), 4 ≤ nums.length →
        ∃ (front : List (ℚ × ℚ)) (a b c d : ℚ × ℚ),
          sortDetected nums = front ++ [a, b, c, d]
          ∧ assignRow nums = ⟨a.2, b.2, c.2, d.2⟩)
    ∧ assignRow [(1, 10), (2, 20), (3, 30), (4, 40), (5, 50)] = ⟨20, 30, 40, 50⟩ := by
  refine ⟨?_, assignRow_short, assignRow_last, ?_⟩
  · intro nums
    exact (List.sorted_insertionSort pairLe nums).imp
      (fun h => h.elim le_of_lt (fun hp => le_of_eq hp.1))
  · norm_num [assignRow, sortDetected, List.insertionSort, List.orderedInsert, pairLe]

/-- C5 witness: the branch hypotheses hold at concrete inputs. -/
theorem classifier_assignment_witness :
    (([(1, 1), (2, 2)] : List (ℚ × ℚ)).length < 4
      ∧ assignRow [(1, 1), (2, 2)] = ⟨0, 0, 0, 0⟩)
    ∧ (4 ≤ ([(1, 1), (2, 2), (3, 3), (4, 4)] : List (ℚ × ℚ)).length
      ∧ ∃ (front : List (ℚ × ℚ)) (a b c d : ℚ × ℚ),
          sortDetected [(1, 1), (2, 2), (3, 3), (4, 4)] = front ++ [a, b, c, d]
          ∧ assignRow [(1, 1), (2, 2), (3, 3), (4, 4)] = ⟨a.2, b.2, c.2, d.2⟩) :=
  ⟨⟨by norm_num, classifier_assignment.2.1 _ (by norm_num)⟩,
   ⟨by norm_num, classifier_assignment.2.2.1 _ (by norm_num)⟩⟩

/-- The sub-index of a zero concentration is 0 for each table pollutant. -/
theorem get_sub_index_zero :
    get_sub_index 0 "PM25" = 0 ∧ get_sub_index 0 "PM10" = 0
    ∧ get_sub_index 0 "CO" = 0 := by
  refine ⟨?_, ?_, ?_⟩ <;>
    norm_num [get_sub_index, bps_pm25_eq, bps_pm10_eq, bps_co_eq]

/-- C8: with fewer than 4 surviving numeric detections a row is still
produced, with PM25 = PM10 = CO = CO2 = 0, every sub-index 0, and
Final_AQI = 0 in both components; nothing fails (all functions are total). -/
theorem insufficient_detections (raw : List Detection) (w : ℚ)
    (h : (detectNumbers raw w).length < 4) :
    (app3Process raw w).1 = ⟨0, 0, 0, 0⟩
    ∧ (piplineProcess raw w).1 = ⟨0, 0, 0, 0⟩
    ∧ get_sub_index 0 "PM25" = 0 ∧ get_sub_index 0 "PM10" = 0
    ∧ get_sub_index 0 "CO" = 0
    ∧ (app3Process raw w).2 = 0 ∧ (piplineProcess raw w).2 = 0 := by
  have hrow : assignRow (detectNumbers raw w) = ⟨0, 0, 0, 0⟩ :=
    assignRow_short _ h
  have hmax : rowMaxSubIndex ⟨0, 0, 0, 0⟩ = 0 := by
    unfold rowMaxSubIndex
    rw [get_sub_index_zero.1, get_sub_index_zero.2.1, get_sub_index_zero.2.2]
    norm_num
  have hround : pyRound 0 = 0 := by norm_num [pyRound]
  refine ⟨?_, ?_, get_sub_index_zero.1, get_sub_index_zero.2.1,
    get_sub_index_zero.2.2, ?_, ?_⟩
  · show assignRow (detectNumbers raw w) = ⟨0, 0, 0, 0⟩
    exact hrow
  · show assignRow (detectNumbers raw w) = ⟨0, 0, 0, 0⟩
    exact hrow
  · show pyRound (rowMaxSubIndex (assignRow (detectNumbers raw w))) = 0
    rw [hrow, hmax]
    exact hround
  · show rowMaxSubIndex (assignRow (detectNumbers raw w)) = 0
    rw [hrow]
    exact hmax

/-- C8 witness: an OCR result list with a single (non-numeric-positioned)
detection yields fewer than 4 survivors and the all-zero row. -/
theorem insufficient_detections_witness :
    (detectNumbers [] 100).length < 4
    ∧ ((app3Process [] 100).1 = ⟨0, 0, 0, 0⟩
      ∧ (piplineProcess [] 100).1 = ⟨0, 0, 0, 0⟩
      ∧ get_sub_index 0 "PM25" = 0 ∧ get_sub_index 0 "PM10" = 0
      ∧ get_sub_index 0 "CO" = 0
      ∧ (app3Process [] 100).2 = 0 ∧ (piplineProcess [] 100).2 = 0) :=
  ⟨by norm_num [detectNumbers], insufficient_detections [] 100 (by norm_num [detectNumbers])⟩

/-- A numeric detection sitting at center x `0.8*w`, outside the center
band. -/
def outOfBandDet : Detection :=
  ⟨⟨70, 0⟩, ⟨90, 0⟩, ⟨90, 10⟩, ⟨70, 10⟩, ['1', '2'], 1⟩

/-- C7: a detection survives the filter exactly when its text passes the
numeric test AND its center x (mean of the 4 corner x coordinates) lies
strictly inside `(0.35*w, 0.65*w)`; the survivors are mapped in order to
`(center_y, float(text))`.  A numeric detection outside the open band is
excluded regardless of its text. -/
theorem center_band_filter :
    (∀ (raw : List Detection) (w : ℚ),
        detectNumbers raw w =
          (raw.filter (fun d => numericText d.text
              && decide (0.35 * w < centerX d) && decide (centerX d < 0.65 * w))).map
            (fun d => (centerY d, pyFloat d.text)))
    ∧ numericText outOfBandDet.text = true
    ∧ centerX outOfBandDet = 80
    ∧ detectNumbers [outOfBandDet] 100 = [] := by
  refine ⟨?_, ?_, ?_, ?_⟩
  · intro raw w
    induction raw with
    | nil => rfl
    | cons d t ih =>
        rw [detectNumbers, List.filterMap_cons, List.filter_cons]
        by_cases h1 : numericText d.text
        · by_cases h2 : 0.35 * w < centerX d ∧ centerX d < 0.65 * w
          · simp only [h1, h2, if_pos, decide_eq_true h2.1, decide_eq_true h2.2,
              Bool.and_self, Bool.true_and, Bool.and_true, if_true, List.map_cons]
            exact congrArg _ ih
          · have hb : (numericText d.text && decide (0.35 * w < centerX d)
                && decide (centerX d < 0.65 * w)) = false := by
              rcases not_and_or.mp h2 with h3 | h3 <;> simp [h3]
            simp [if_neg h2, hb]
            exact ih
        · simp_all [detectNumbers, ih]
  · rfl
  · norm_num [centerX, outOfBandDet]
  · norm_num [detectNumbers, outOfBandDet, centerX]

/-- Removing the first dot yields a sublist of the original string. -/
theorem replaceFirstDot_sublist (s : List Char) : List.Sublist (replaceFirstDot s) s := by
  induction s with
  | nil => simp [replaceFirstDot]
  | cons c cs ih =>
      by_cases h : c = '.'
      · simp only [replaceFirstDot, if_pos h]
        exact (List.sublist_cons_self c cs)
      · simp only [replaceFirstDot, if_neg h]
        exact ih.cons₂ c

/-- If the string with its first dot removed is all digits, the original is
all digits-or-dots with at most one dot. -/
theorem replaceFirstDot_digits (s : List Char)
    (h : (replaceFirstDot s).all (fun c => c.isDigit) = true) :
    s.all (fun c => c.isDigit || c = '.') = true ∧ s.count '.' ≤ 1 := by
  induction s with
  | nil => simp
  | cons c cs ih =>
      by_cases hc : c = '.'
      · subst hc
        rw [replaceFirstDot, if_pos rfl] at h
        have hdots : List.count '.' cs = 0 := by
          rw [List.count_eq_zero]
          intro hm
          have := List.all_eq_true.mp h _ hm
          simp [Char.isDigit] at this
        constructor
        · rw [List.all_cons]
          simp only [decide_eq_true rfl, Bool.or_true, Bool.true_and]
          exact List.all_eq_true.mpr
            (fun x hx => by simp [List.all_eq_true.mp h x hx])
        · rw [List.count_cons]
          simp [hdots]
      · rw [replaceFirstDot, if_neg hc, List.all_cons, Bool.and_eq_true] at h
        obtain ⟨hcd, hrest⟩ := h
        obtain ⟨ih1, ih2⟩ := ih hrest
        constructor
        · rw [List.all_cons, ih1, hcd]
          rfl
        · rw [List.count_cons]
          simp only [beq_iff_eq]
          rw [if_neg hc]
          omega

/-- Structure of a string accepted by the numeric filter: nonempty, contains
a digit, and is digits with at most one dot. -/
theorem numericText_props (s : List Char) (h : numericText s = true) :
    s ≠ [] ∧ s.any (fun c => c.isDigit) = true
    ∧ s.all (fun c => c.isDigit || c = '.') = true ∧ s.count '.' ≤ 1 := by
  unfold numericText pyIsDigit at h
  rw [Bool.and_eq_true] at h
  obtain ⟨hne, hall⟩ := h
  have hne' : replaceFirstDot s ≠ [] := by
    intro he
    rw [he] at hne
    simp at hne
  have hdig := replaceFirstDot_digits s hall
  obtain ⟨c, hcmem⟩ := List.exists_mem_of_ne_nil _ hne'
  have hcdig : c.isDigit = true := List.all_eq_true.mp hall c hcmem
  have hcs : c ∈ s := (replaceFirstDot_sublist s).subset hcmem
  refine ⟨?_, List.any_eq_true.mpr ⟨c, hcs, hcdig⟩, hdig.1, hdig.2⟩
  intro hs
  rw [hs] at hne'
  exact hne' rfl

/-- C10: every text accepted by the numeric filter is nonempty, contains a
digit, and is in the domain of `float()`; `"."` is rejected while `".5"` and
`"5."` are accepted and parse to 0.5 and 5.0. -/
theorem numeric_filter_safe :
    (∀ s : List Char, numericText s = true →
        s ≠ [] ∧ s.any (fun c => c.isDigit) = true ∧ (pyFloatParse s).isSome = true)
    ∧ numericText ['.'] = false
    ∧ numericText ['.', '5'] = true ∧ pyFloatParse ['.', '5'] = some (1/2)
    ∧ numericText ['5', '.'] = true ∧ pyFloatParse ['5', '.'] = some 5 := by
  refine ⟨fun s h => ?_, ?_, ?_, ?_, ?_, ?_⟩
  · obtain ⟨h1, h2, h3, h4⟩ := numericText_props s h
    refine ⟨h1, h2, ?_⟩
    have hcond : (s.all (fun c => c.isDigit || c = '.')
        && decide (s.count '.' ≤ 1) && s.any (fun c => c.isDigit)) = true := by
      rw [h3, h2, decide_eq_true h4]
      rfl
    unfold pyFloatParse
    rw [if_pos hcond]
    rfl
  · rfl
  · rfl
  · exact of_decide_eq_true (by with_unfolding_all rfl)
  · rfl
  · exact of_decide_eq_true (by with_unfolding_all rfl)

/-- C10 witness: the accepted-text branch at the concrete fragment `"7.25"`. -/
theorem numeric_filter_safe_witness :
    numericText ['7', '.', '2', '5'] = true
    ∧ (['7', '.', '2', '5'] : List Char) ≠ []
    ∧ (['7', '.', '2', '5'] : List Char).any (fun c => c.isDigit) = true
    ∧ (pyFloatParse ['7', '.', '2', '5']).isSome = true := by
  have h := numeric_filter_safe.1 ['7', '.', '2', '5'] rfl
  exact ⟨rfl, h.1, h.2.1, h.2.2⟩

/-- Four centered detections (center x = 50, image width 100) at increasing
center y, reading 45, 0, 0, 0. -/
def cxDets3 : List Detection :=
  [⟨⟨40, 10⟩, ⟨60, 10⟩, ⟨60, 10⟩, ⟨40, 10⟩, ['4', '5'], 1⟩,
   ⟨⟨40, 20⟩, ⟨60, 20⟩, ⟨60, 20⟩, ⟨40, 20⟩, ['0'], 1⟩,
   ⟨⟨40, 30⟩, ⟨60, 30⟩, ⟨60, 30⟩, ⟨40, 30⟩, ['0'], 1⟩,
   ⟨⟨40, 40⟩, ⟨60, 40⟩, ⟨60, 40⟩, ⟨40, 40⟩, ['0'], 1⟩]

/-- The PM25 sub-index of 45 is the non-integer 2165/29 ≈ 74.655. -/
theorem get_sub_index_45 : get_sub_index 45 "PM25" = 2165/29 := by
  norm_num [get_sub_index, bps_pm25_eq, scanBands, pm25Bps]

/-- The maximum sub-index of the row (45, 0, 0, 0). -/
theorem rowMax_45 : rowMaxSubIndex ⟨45, 0, 0, 0⟩ = 2165/29 := by
  unfold rowMaxSubIndex
  rw [get_sub_index_45, get_sub_index_zero.2.1, get_sub_index_zero.2.2,
    max_eq_left (by norm_num : (0:ℚ) ≤ 2165/29),
    max_eq_left (by norm_num : (0:ℚ) ≤ 2165/29)]

/-- C3 counterexample: on detections reading 45/0/0/0 the batch component
stores `Final_AQI = 2165/29` — the raw, unrounded maximum sub-index — which
differs from `round(max(...)) = 75`; so `Final_AQI = round(max(...))` does not
hold for `pipline_code.py`. -/
theorem final_aqi_not_rounded_cx :
    (piplineProcess cxDets3 100).1 = ⟨45, 0, 0, 0⟩
    ∧ (piplineProcess cxDets3 100).2 = 2165/29
    ∧ pyRound (rowMaxSubIndex (piplineProcess cxDets3 100).1) = 75
    ∧ (piplineProcess cxDets3 100).2
        ≠ (pyRound (rowMaxSubIndex (piplineProcess cxDets3 100).1) : ℚ) := by
  have hrow : assignRow (detectNumbers cxDets3 100) = ⟨45, 0, 0, 0⟩ :=
    of_decide_eq_true (by with_unfolding_all rfl)
  have hfinal : (piplineProcess cxDets3 100).2 = 2165/29 := by
    show rowMaxSubIndex (assignRow (detectNumbers cxDets3 100)) = 2165/29
    rw [hrow, rowMax_45]
  have hfl : ⌊(2165:ℚ)/29⌋ = 74 := by norm_num [Int.floor_eq_iff]
  have hround : pyRound ((2165:ℚ)/29) = 75 := by
    unfold pyRound
    rw [hfl]
    norm_num
  have hmaxrow : rowMaxSubIndex (piplineProcess cxDets3 100).1 = 2165/29 := by
    show rowMaxSubIndex (assignRow (detectNumbers cxDets3 100)) = 2165/29
    rw [hrow, rowMax_45]
  refine ⟨hrow, hfinal, ?_, ?_⟩
  · rw [hmaxrow]
    exact hround
  · rw [hfinal, hmaxrow, hround]
    norm_num

/-- Four centered detections at increasing center y reading 90, 0, 0, 7. -/
def dets90 : List Detection :=
  [⟨⟨40, 10⟩, ⟨60, 10⟩, ⟨60, 10⟩, ⟨40, 10⟩, ['9', '0'], 1⟩,
   ⟨⟨40, 20⟩, ⟨60, 20⟩, ⟨60, 20⟩, ⟨40, 20⟩, ['0'], 1⟩,
   ⟨⟨40, 30⟩, ⟨60, 30⟩, ⟨60, 30⟩, ⟨40, 30⟩, ['0'], 1⟩,
   ⟨⟨40, 40⟩, ⟨60, 40⟩, ⟨60, 40⟩, ⟨40, 40⟩, ['7'], 1⟩]

/-- The maximum sub-index of the row (90, 0, 0, co2) for any CO2. -/
theorem rowMax_90 : rowMaxSubIndex ⟨90, 0, 0, 7⟩ = 200 := by
  have g : get_sub_index 90 "PM25" = 200 := by
    norm_num [get_sub_index, bps_pm25_eq, scanBands, pm25Bps]
  unfold rowMaxSubIndex
  rw [g, get_sub_index_zero.2.1, get_sub_index_zero.2.2,
    max_eq_left (by norm_num : (0:ℚ) ≤ 200),
    max_eq_left (by norm_num : (0:ℚ) ≤ 200)]

/-- C3 amended: in `app3.py` the stored `Final_AQI` is
`int(round(max(si_pm25, si_pm10, si_co)))` (banker's rounding), while in
`pipline_code.py` it is the raw `max(si_pm25, si_pm10, si_co)` with no
rounding; the CO2 field never contributes to either; for a row reading
PM25 = 90, PM10 = 0, CO = 0 (CO2 = 7) both components produce
`Final_AQI = 200`. -/
theorem final_aqi_formula :
    (∀ (raw : List Detection) (w : ℚ),
        (app3Process raw w).2 = pyRound (rowMaxSubIndex (app3Process raw w).1)
        ∧ (piplineProcess raw w).2 = rowMaxSubIndex (piplineProcess raw w).1)
    ∧ (∀ p q c x y : ℚ, rowMaxSubIndex ⟨p, q, c, x⟩ = rowMaxSubIndex ⟨p, q, c, y⟩)
    ∧ (app3Process dets90 100).1 = ⟨90, 0, 0, 7⟩
    ∧ (app3Process dets90 100).2 = 200
    ∧ (piplineProcess dets90 100).2 = 200 := by
  have hrow : assignRow (detectNumbers dets90 100) = ⟨90, 0, 0, 7⟩ :=
    of_decide_eq_true (by with_unfolding_all rfl)
  refine ⟨fun raw w => ⟨rfl, rfl⟩, fun p q c x y => rfl, hrow, ?_, ?_⟩
  · show pyRound (rowMaxSubIndex (assignRow (detectNumbers dets90 100))) = 200
    rw [hrow, rowMax_90]
    norm_num [pyRound]
  · show rowMaxSubIndex (assignRow (detectNumbers dets90 100)) = 200
    rw [hrow, rowMax_90]

/-- Four centered detections at increasing center y reading 105, 0, 0, 0. -/
def cxDets4 : List Detection :=
  [⟨⟨40, 10⟩, ⟨60, 10⟩, ⟨60, 10⟩, ⟨40, 10⟩, ['1', '0', '5'], 1⟩,
   ⟨⟨40, 20⟩, ⟨60, 20⟩, ⟨60, 20⟩, ⟨40, 20⟩, ['0'], 1⟩,
   ⟨⟨40, 30⟩, ⟨60, 30⟩, ⟨60, 30⟩, ⟨40, 30⟩, ['0'], 1⟩,
   ⟨⟨40, 40⟩, ⟨60, 40⟩, ⟨60, 40⟩, ⟨40, 40⟩, ['0'], 1⟩]

/-- The maximum sub-index of the row (105, 0, 0, 0). -/
theorem rowMax_105 : rowMaxSubIndex ⟨105, 0, 0, 0⟩ = 7215/29 := by
  have g : get_sub_index 105 "PM25" = 7215/29 := by
    norm_num [get_sub_index, bps_pm25_eq, scanBands, pm25Bps]
  unfold rowMaxSubIndex
  rw [g, get_sub_index_zero.2.1, get_sub_index_zero.2.2,
    max_eq_left (by norm_num : (0:ℚ) ≤ 7215/29),
    max_eq_left (by norm_num : (0:ℚ) ≤ 7215/29)]

/-- C4 counterexample: on detections reading 105/0/0/0 the two components
agree on all pollutant fields but store different `Final_AQI` values
(`249` in `app3.py` after rounding, the raw `7215/29 ≈ 248.79` in
`pipline_code.py`), so their per-image outputs are not identical. -/
theorem components_not_identical_cx :
    (app3Process cxDets4 100).1 = (piplineProcess cxDets4 100).1
    ∧ (app3Process cxDets4 100).2 = 249
    ∧ (piplineProcess cxDets4 100).2 = 7215/29
    ∧ ((app3Process cxDets4 100).2 : ℚ) ≠ (piplineProcess cxDets4 100).2 := by
  have hrow : assignRow (detectNumbers cxDets4 100) = ⟨105, 0, 0, 0⟩ :=
    of_decide_eq_true (by with_unfolding_all rfl)
  have hfl : ⌊(7215:ℚ)/29⌋ = 248 := by norm_num [Int.floor_eq_iff]
  have happ : (app3Process cxDets4 100).2 = 249 := by
    show pyRound (rowMaxSubIndex (assignRow (detectNumbers cxDets4 100))) = 249
    rw [hrow, rowMax_105]
    unfold pyRound
    rw [hfl]
    norm_num
  have hpip : (piplineProcess cxDets4 100).2 = 7215/29 := by
    show rowMaxSubIndex (assignRow (detectNumbers cxDets4 100)) = 7215/29
    rw [hrow, rowMax_105]
  refine ⟨rfl, happ, hpip, ?_⟩
  rw [happ, hpip]
  norm_num

/-- C4 amended: the two components share the classification logic exactly —
identical pollutant fields on every input — and their `Final_AQI` values agree
up to the final rounding step: app3's stored value is the (banker's) rounding
of pipline's stored value. -/
theorem components_equivalent :
    ∀ (raw : List Detection) (w : ℚ),
      (app3Process raw w).1 = (piplineProcess raw w).1
      ∧ (app3Process raw w).2 = pyRound (piplineProcess raw w).2 :=
  fun _ _ => ⟨rfl, rfl⟩

/-- `pyRound` of a nonnegative value is nonnegative. -/
theorem pyRound_nonneg (q : ℚ) (h : 0 ≤ q) : 0 ≤ pyRound q := by
  have hf : 0 ≤ ⌊q⌋ := Int.floor_nonneg.mpr h
  unfold pyRound
  split_ifs <;> omega

/-- `pyRound` of a value at most 500 is at most 500. -/
theorem pyRound_le_500 (q : ℚ) (h : q ≤ 500) : pyRound q ≤ 500 := by
  have hle : (⌊q⌋ : ℚ) ≤ q := Int.floor_le q
  have hf : ⌊q⌋ ≤ 500 := by
    have : (⌊q⌋ : ℚ) ≤ 500 := le_trans hle h
    exact_mod_cast this
  unfold pyRound
  split_ifs with h1 h2 h3
  · exact hf
  · have hh : (1:ℚ)/2 ≤ q - ⌊q⌋ := not_lt.mp h1
    have : (⌊q⌋ : ℚ) < 500 := by linarith
    have : ⌊q⌋ < 500 := by exact_mod_cast this
    omega
  · exact hf
  · have hh : (1:ℚ)/2 ≤ q - ⌊q⌋ := not_lt.mp h1
    have : (⌊q⌋ : ℚ) < 500 := by linarith
    have : ⌊q⌋ < 500 := by exact_mod_cast this
    omega

/-- C9: every sub-index, for every pollutant string (known or not) and every
rational concentration, lies in `[0, 500]`; consequently the `Final_AQI` of
every produced row lies in `[0, 500]` in both components. -/
theorem aqi_range :
    (∀ (conc : ℚ) (pollutant : String),
        0 ≤ get_sub_index conc pollutant ∧ get_sub_index conc pollutant ≤ 500)
    ∧ (∀ (raw : List Detection) (w : ℚ),
        0 ≤ (piplineProcess raw w).2 ∧ (piplineProcess raw w).2 ≤ 500
        ∧ 0 ≤ (app3Process raw w).2 ∧ (app3Process raw w).2 ≤ 500) := by
  refine ⟨get_sub_index_range, fun raw w => ?_⟩
  have h25 := get_sub_index_range (assignRow (detectNumbers raw w)).pm25 "PM25"
  have h10 := get_sub_index_range (assignRow (detectNumbers raw w)).pm10 "PM10"
  have hco := get_sub_index_range (assignRow (detectNumbers raw w)).co "CO"
  have hmax0 : 0 ≤ rowMaxSubIndex (assignRow (detectNumbers raw w)) :=
    le_trans h25.1 (le_trans (le_max_left _ _) (le_max_left _ _))
  have hmax5 : rowMaxSubIndex (assignRow (detectNumbers raw w)) ≤ 500 :=
    max_le (max_le h25.2 h10.2) hco.2
  exact ⟨hmax0, hmax5, pyRound_nonneg _ hmax0, pyRound_le_500 _ hmax5⟩

end AirQuality
